import Mathlib

/-!
Verification of the Game-of-Life terminal renderer (`src/gol_color.c`) against
its natural-language specification.

The development shallowly embeds the program's core routines:

* `do_gen_naive` — the simulation stepper (C lines 41-53);
* `color_tokens_4bit` / `bw_tokens_4bit` — the display token tables (lines 60-61);
* `fill_draw_buffer_4bit_color` — the frame encoder (lines 68-76);
* the draw-buffer scaffolding initialization from `main` (lines 157-169);
* the generation loop of `main` (lines 171-198);
* the argument parsing/validation prologue of `main` (lines 98-124).

Cell buffers are embedded as total functions from the index type the C code
uses (`Int` for the stepper, which indexes with `signed long`; `Nat` for the
encoder, which walks byte pointers forward) to `Nat` cell values; machine
integers do not overflow in any modelled computation (indices are bounded by
`3*(width+1)*height` and counts by 9), so ideal integers are faithful.
The draw buffer is a `List Nat` of 16-bit little-endian units exactly as the
C code writes them through a `uint16_t *`: e.g. `0x3034` is the byte pair
`'4' '0'`, i.e. the ASCII color code string "40".
-/

/-! ## Simulation stepper (`do_gen_naive`, C lines 41-53) -/

/-- The inner accumulation of `do_gen_naive` (C lines 46-49): the
self-inclusive 3×3 live count at cell `(y, x)`.  The C loops run
`dy`, `dx` over `-1, 0, 1` and accumulate
`src_buffer[(dy + y + h) % h * w + (dx + x + w) % w]`; all index arithmetic
is done in `signed long` (`Int` here, `%` is `Int.emod`, which agrees with
C `%` on the nonnegative operands that occur). -/
def live_count (src : Int → Nat) (h w y x : Int) : Nat :=
  ([-1, 0, 1] : List Int).foldl (fun a dy =>
    ([-1, 0, 1] : List Int).foldl (fun b dx =>
      b + src ((dy + y + h) % h * w + (dx + x + w) % w)) a) 0

/-- The per-cell store of `do_gen_naive` (C line 50):
`dst[y*w+x] = ((live_count == 3) | ((live_count == 4) & src[y*w+x])) != 0`.
The C `|`/`&` are bitwise on the 0/1 comparison results and the cell byte,
embedded with `Nat.lor`/`Nat.land`. -/
def gen_cell (src : Int → Nat) (h w y x : Int) : Nat :=
  if ((if live_count src h w y x = 3 then 1 else 0) |||
      ((if live_count src h w y x = 4 then 1 else 0) &&& src (y * w + x))) ≠ 0
  then 1 else 0

/-- The stepper `do_gen_naive` (C lines 41-53): the destination buffer produced by the
`y`/`x` double loop.  The loop writes `dst_buffer[y*w+x]` for `y < height`,
`x < width`, so entry `i` of the row-major result is the cell at
`y = i / width`, `x = i % width`. -/
def do_gen_naive (src : Int → Nat) (height width : Nat) : List Nat :=
  (List.range (height * width)).map fun i =>
    gen_cell src height width ((i / width : Nat) : Int) ((i % width : Nat) : Int)

/-- Modelled from the spec (§4.1, claim C2): the conventional neighbor-only
count — the 8 surrounding cells of `(y, x)` with the same modular wrap on
both axes, the center excluded. -/
def neighbor_count (src : Int → Nat) (h w y x : Int) : Nat :=
  ([(-1, -1), (-1, 0), (-1, 1), (0, -1), (0, 1), (1, -1), (1, 0), (1, 1)] :
      List (Int × Int)).foldl
    (fun a d => a + src ((d.1 + y + h) % h * w + (d.2 + x + w) % w)) 0

/-- Modelled from the spec (claim C2): the standard Game-of-Life rule —
a cell is alive in the next generation iff it was dead with exactly 3 live
neighbors, or alive with 2 or 3 live neighbors. -/
def standard_cell (src : Int → Nat) (h w y x : Int) : Nat :=
  if (src (y * w + x) = 0 ∧ neighbor_count src h w y x = 3) ∨
     (src (y * w + x) = 1 ∧
       (neighbor_count src h w y x = 2 ∨ neighbor_count src h w y x = 3))
  then 1 else 0

/-- Modelled from the spec (claim C2): the standard step, cell by cell in the
same row-major layout as `do_gen_naive`. -/
def standard_step (src : Int → Nat) (height width : Nat) : List Nat :=
  (List.range (height * width)).map fun i =>
    standard_cell src height width ((i / width : Nat) : Int) ((i % width : Nat) : Int)

/-- Input construction for claim C7: the grid (row-major, row length `w`)
that is dead everywhere except a 2×2 block of live cells with top-left
corner at row `r`, column `c`. -/
def block_grid (w r c : Nat) : Int → Nat := fun i =>
  if i = (r * w + c : Nat) ∨ i = (r * w + c + 1 : Nat) ∨
     i = ((r + 1) * w + c : Nat) ∨ i = ((r + 1) * w + c + 1 : Nat)
  then 1 else 0

/-! ## Frame encoder (`fill_draw_buffer_4bit_color`, C lines 55-76) -/

/-- The table `color_tokens_4bit` (C line 60): little-endian `uint16_t` ASCII pairs
`"40" "41" "42" "47"`. -/
def color_tokens_4bit : List Nat := [0x3034, 0x3134, 0x3234, 0x3734]

/-- The table `bw_tokens_4bit` (C line 61): little-endian `uint16_t` ASCII pairs
`"40" "47" "40" "47"`. -/
def bw_tokens_4bit : List Nat := [0x3034, 0x3734, 0x3034, 0x3734]

/-- The encoder `fill_draw_buffer_4bit_color` (C lines 68-76).  The C walks three
pointers: `draw_buffer` starts at unit 1 (`draw_buffer += 1`) and advances
by 3 units per cell and 3 more per row terminator, so the cell `(y, x)`
write lands on unit `3*(y*(width+1)+x) + 1`; `abp`/`pbp` advance one cell
per iteration, so at `(y, x)` they read index `y*width + x`.  The written
value is `active_tokens_4bit[((*abp) << 1) | *pbp]` — the token table
indexed by `(current << 1) | previous` (the table read is embedded as
`List.getD _ _ 0`; the index is `< 4` for the binary grids of the claims). -/
def fill_draw_buffer_4bit_color (draw : List Nat) (active prev : Nat → Nat)
    (tokens : List Nat) (height width : Nat) : List Nat :=
  (List.range height).foldl (fun buf y =>
    (List.range width).foldl (fun b x =>
      b.set (3 * (y * (width + 1) + x) + 1)
        (tokens.getD ((active (y * width + x) <<< 1) ||| prev (y * width + x)) 0))
      buf) draw

/-- The draw-buffer scaffolding written once by `main` (C lines 157-169):
per row, `width` cell units `"\x1b[" "00" "m "` followed by one row
terminator unit `"\x1b[" "00" "m\n"`, each unit three little-endian
`uint16_t` values. -/
def init_draw_buffer (height width : Nat) : List Nat :=
  ((List.range height).map (fun _ =>
    ((List.range width).map (fun _ => [0x5B1B, 0x3030, 0x206D])).flatten ++
      [0x5B1B, 0x3030, 0x0A6D])).flatten

/-- The first frame rendered by `main`: line 156 copies the randomized front
buffer into the back buffer (`memcpy(back_buffer, front_buffer, ...)`), so
the first `fill_draw_buffer_4bit_color` call (line 179) runs with
`prev = cur`. -/
def first_frame (cur : Nat → Nat) (tokens : List Nat) (height width : Nat) :
    List Nat :=
  fill_draw_buffer_4bit_color (init_draw_buffer height width) cur cur tokens
    height width

/-- Modelled from the spec (claim C3 as amended): the display token as a
function of the transition `(previous, current)`.  Colored:
dead→dead "40", dead→live "42", live→dead "41", live→live "47".
Monochrome (as the code behaves, see C4): dead→dead "40", dead→live "40",
live→dead "47", live→live "47". -/
def transition_token (colored : Bool) (p a : Nat) : Nat :=
  if p = 0 ∧ a = 0 then 0x3034
  else if p = 0 ∧ a = 1 then (if colored then 0x3234 else 0x3034)
  else if p = 1 ∧ a = 0 then (if colored then 0x3134 else 0x3734)
  else 0x3734

/-- Generic view of a sequence of single-cell stores: fold `List.set` over a
list of (position, value) pairs.  `fill_draw_buffer_4bit_color` is proved
equal to `write_cells` of its write list. -/
def write_cells (ps : List (Nat × Nat)) (buf : List Nat) : List Nat :=
  ps.foldl (fun b q => b.set q.1 q.2) buf

/-- The (position, value) pairs written by `fill_draw_buffer_4bit_color`,
row-major. -/
def cell_writes (active prev : Nat → Nat) (tokens : List Nat)
    (height width : Nat) : List (Nat × Nat) :=
  ((List.range height).map (fun y => (List.range width).map (fun x =>
    (3 * (y * (width + 1) + x) + 1,
      tokens.getD ((active (y * width + x) <<< 1) ||| prev (y * width + x)) 0)))).flatten

/-! ## Driver loop (`main`, C lines 171-198) -/

/-- The generation loop of `main` (C lines 171-196):
`uint gen = 0; while (gen++ < 50000) { if (status == SIGINT) break; ...render, rotate, step...; }`
followed by `return 0` (line 198).  The loop body never modifies `gen` or the
loop condition; its only control input is the asynchronously set `status`
flag, embedded as a function `interrupt` from the generation counter to the
value of the `status == SIGINT` test at that iteration.  The result is the
pair (number of fully executed render-and-step iterations, exit code).
Recursion is on the quantity `50000 - gen`, which the C increment
`gen++` strictly decreases while the loop condition holds. -/
def driver_loop (interrupt : Nat → Bool) (gen : Nat) : Nat × Nat :=
  if gen < 50000 then
    if interrupt gen then (0, 0)
    else
      ((driver_loop interrupt (gen + 1)).1 + 1, (driver_loop interrupt (gen + 1)).2)
  else (0, 0)
termination_by 50000 - gen
decreasing_by omega

/-! ## Argument parsing and validation (`main`, C lines 98-124) -/

/-- ASCII lowercase conversion, as `strncasecmp` applies to each byte. -/
def ascii_lower (ch : Char) : Char :=
  if 'A' ≤ ch ∧ ch ≤ 'Z' then Char.ofNat (ch.toNat + 32) else ch

/-- Whitespace recognized by `strtoul` (C `isspace` in the POSIX locale). -/
def c_isspace (ch : Char) : Bool :=
  ch == ' ' || ch == '\t' || ch == '\n' || ch == '\x0b' || ch == '\x0c' || ch == '\r'

/-- ULONG_MAX on the LP64 platforms the program targets. -/
def ulong_max : Nat := 2 ^ 64 - 1

/-- Embedding of `strtoul(s, &end, 10)` (C line 117) on a NUL-free argument
string: skip leading whitespace, consume an optional sign, then a maximal
run of decimal digits.  Returns
(value, digits-consumed, remaining characters at `end`, ERANGE).
With no digits, `strtoul` performs no conversion: value 0, `end` reset to
the original string.  On magnitude overflow it returns `ULONG_MAX` and sets
`ERANGE`; a `-` sign negates the value in `unsigned long` arithmetic. -/
def strtoul10 (s : List Char) : Nat × Bool × List Char × Bool :=
  let s1 := s.dropWhile c_isspace
  let signed : Bool × List Char :=
    match s1 with
    | '-' :: t => (true, t)
    | '+' :: t => (false, t)
    | _ => (false, s1)
  let ds := signed.2.takeWhile Char.isDigit
  let rest := signed.2.dropWhile Char.isDigit
  let n := ds.foldl (fun a ch => a * 10 + (ch.toNat - '0'.toNat)) 0
  if ds.isEmpty then (0, false, s, false)
  else if ulong_max < n then (ulong_max, true, rest, true)
  else ((if signed.1 then (2 ^ 64 - n % 2 ^ 64) % 2 ^ 64 else n), true, rest, false)

/-- The per-argument acceptance test of `main` (C line 118): the argument is
rejected iff `end == argv[i+1]` (no digits consumed), `*end != '\0'`
(trailing characters), `errno == ERANGE`, or the value is outside
`[min_vals[i], max_vals[i]]`. -/
def check_arg (s : List Char) (lo hi : Nat) : Bool :=
  (strtoul10 s).2.1 && (strtoul10 s).2.2.1.isEmpty && !(strtoul10 s).2.2.2 &&
    decide (lo ≤ (strtoul10 s).1) && decide ((strtoul10 s).1 ≤ hi)

/-- Embedding of `strncasecmp(s, t, n) == 0` for NUL-terminated strings
modelled as NUL-free char lists: the comparison stops at the first
difference, at the `n`-th character, or at a NUL (i.e. the end of either
list; a length difference within the first `n` characters is a mismatch
against the shorter string's NUL). -/
def strncaseeq (s t : List Char) (n : Nat) : Bool :=
  ((s.take n).map ascii_lower == (t.take n).map ascii_lower) &&
    (n ≤ s.length || n ≤ t.length || s.length == t.length)

/-- The help test of `main` (C line 103):
`strncasecmp(argv[1], "-h", 2) == 0 || strncasecmp(argv[1], "--help", 6) == 0`. -/
def is_help_arg (s : List Char) : Bool :=
  strncaseeq s ['-', 'h'] 2 || strncaseeq s ['-', '-', 'h', 'e', 'l', 'p'] 6

/-- The monochrome-flag test of `main` (C line 107):
`strncasecmp("-bw", argv[1], 4) == 0 || strncasecmp("--bw", argv[1], 5) == 0`
(both compare past the literal's NUL, hence exact case-insensitive match). -/
def is_bw_arg (s : List Char) : Bool :=
  strncaseeq ['-', 'b', 'w'] s 4 || strncaseeq ['-', '-', 'b', 'w'] s 5

/-- The validation loop of `main` (C lines 111-124), unrolled over
`i = 0, 1, 2` with `min_vals = {1, 1, 0}`, `max_vals = {2000, 2000, 4800}`:
the first failing argument causes `return 1`; otherwise the three parsed
values are produced (and `main` proceeds to allocate its buffers,
lines 126-143). -/
def validate3 (xs : List (List Char)) : Except Nat (Nat × Nat × Nat) :=
  if !check_arg (xs.getD 0 []) 1 2000 then .error 1
  else if !check_arg (xs.getD 1 []) 1 2000 then .error 1
  else if !check_arg (xs.getD 2 []) 0 4800 then .error 1
  else .ok ((strtoul10 (xs.getD 0 [])).1, (strtoul10 (xs.getD 1 [])).1,
    (strtoul10 (xs.getD 2 [])).1)

/-- The argument-handling prologue of `main` (C lines 103-124), after a
successful `signal` registration.  `argv` is the full argument vector,
program name included; `argc = argv.length`.  Results: `.error 0` — usage
printed, `return 0` (line 105); `.error 1` — validation failure,
`return 1` (line 122), which happens before any buffer is allocated
(`malloc`, lines 137-139) and before any simulation step; `.ok` — the
monochrome flag and the accepted `height`, `width`, `max_FPS`. -/
def main_args (argv : List (List Char)) : Except Nat (Bool × Nat × Nat × Nat) :=
  if argv.length < 4 ∨ (1 < argv.length ∧ is_help_arg (argv.getD 1 []) = true) then
    .error 0
  else if 5 ≤ argv.length ∧ is_bw_arg (argv.getD 1 []) = true then
    (validate3 (argv.drop 2)).map fun v => (true, v.1, v.2.1, v.2.2)
  else
    (validate3 (argv.drop 1)).map fun v => (false, v.1, v.2.1, v.2.2)

/-- Failure of an argument per claim C10's wording: the value "fails decimal
parsing (no digits consumed or trailing non-digit characters) or falls
outside its range". -/
def claim_fails (s : List Char) (lo hi : Nat) : Prop :=
  (strtoul10 s).2.1 = false ∨ (strtoul10 s).2.2.1 ≠ [] ∨
    (strtoul10 s).1 < lo ∨ hi < (strtoul10 s).1

/-! ## Helper lemmas: stepper -/

lemma live_count_unfold (src : Int → Nat) (h w y x : Int) :
    live_count src h w y x =
      0 + src ((-1 + y + h) % h * w + (-1 + x + w) % w)
        + src ((-1 + y + h) % h * w + (0 + x + w) % w)
        + src ((-1 + y + h) % h * w + (1 + x + w) % w)
        + src ((0 + y + h) % h * w + (-1 + x + w) % w)
        + src ((0 + y + h) % h * w + (0 + x + w) % w)
        + src ((0 + y + h) % h * w + (1 + x + w) % w)
        + src ((1 + y + h) % h * w + (-1 + x + w) % w)
        + src ((1 + y + h) % h * w + (0 + x + w) % w)
        + src ((1 + y + h) % h * w + (1 + x + w) % w) := rfl

lemma neighbor_count_unfold (src : Int → Nat) (h w y x : Int) :
    neighbor_count src h w y x =
      0 + src ((-1 + y + h) % h * w + (-1 + x + w) % w)
        + src ((-1 + y + h) % h * w + (0 + x + w) % w)
        + src ((-1 + y + h) % h * w + (1 + x + w) % w)
        + src ((0 + y + h) % h * w + (-1 + x + w) % w)
        + src ((0 + y + h) % h * w + (1 + x + w) % w)
        + src ((1 + y + h) % h * w + (-1 + x + w) % w)
        + src ((1 + y + h) % h * w + (0 + x + w) % w)
        + src ((1 + y + h) % h * w + (1 + x + w) % w) := rfl

lemma wrap_mid (h y : Int) (h0 : 0 ≤ y) (h1 : y < h) : (0 + y + h) % h = y := by
  have e : (0 + y + h) = y + h * 1 := by ring
  rw [e, Int.add_mul_emod_self_left, Int.emod_eq_of_lt h0 h1]

lemma wrap_dn (h y : Int) (h0 : 0 ≤ y) (h1 : y < h) :
    (-1 + y + h) % h = if y = 0 then h - 1 else y - 1 := by
  by_cases hy : y = 0
  · subst hy
    rw [if_pos rfl]
    have e : (-1 + 0 + h : Int) = h - 1 := by ring
    rw [e, Int.emod_eq_of_lt (by omega) (by omega)]
  · rw [if_neg hy]
    have e : (-1 + y + h) = (y - 1) + h * 1 := by ring
    rw [e, Int.add_mul_emod_self_left, Int.emod_eq_of_lt (by omega) (by omega)]

lemma wrap_up (h y : Int) (h0 : 0 ≤ y) (h1 : y < h) :
    (1 + y + h) % h = if y = h - 1 then 0 else y + 1 := by
  by_cases hy : y = h - 1
  · subst hy
    rw [if_pos rfl]
    have e : (1 + (h - 1) + h : Int) = 0 + h * 2 := by ring
    rw [e, Int.add_mul_emod_self_left, Int.zero_emod]
  · rw [if_neg hy]
    have e : (1 + y + h) = (y + 1) + h * 1 := by ring
    rw [e, Int.add_mul_emod_self_left, Int.emod_eq_of_lt (by omega) (by omega)]

lemma bit_rule (c b : Nat) (hb : b ≤ 1) :
    (((if c = 3 then 1 else 0) ||| ((if c = 4 then 1 else 0) &&& b)) ≠ 0) ↔
      (c = 3 ∨ (c = 4 ∧ b = 1)) := by
  interval_cases b <;> by_cases h3 : c = 3 <;> by_cases h4 : c = 4 <;>
    simp [h3, h4]

lemma gen_cell_eq (src : Int → Nat) (h w y x : Int)
    (hb : src (y * w + x) ≤ 1) :
    gen_cell src h w y x =
      if live_count src h w y x = 3 ∨
         (live_count src h w y x = 4 ∧ src (y * w + x) = 1)
      then 1 else 0 := by
  unfold gen_cell
  by_cases hP : live_count src h w y x = 3 ∨
      (live_count src h w y x = 4 ∧ src (y * w + x) = 1)
  · rw [if_pos ((bit_rule _ _ hb).mpr hP), if_pos hP]
  · rw [if_neg (fun hn => hP ((bit_rule _ _ hb).mp hn)), if_neg hP]

lemma live_eq_neighbor_add_center (src : Int → Nat) (h w y x : Int)
    (hy0 : 0 ≤ y) (hy1 : y < h) (hx0 : 0 ≤ x) (hx1 : x < w) :
    live_count src h w y x = neighbor_count src h w y x + src (y * w + x) := by
  rw [live_count_unfold, neighbor_count_unfold, wrap_mid h y hy0 hy1,
    wrap_mid w x hx0 hx1]
  omega

lemma gen_cell_eq_standard (src : Int → Nat) (h w y x : Int)
    (hbin : ∀ i, src i = 0 ∨ src i = 1)
    (hy0 : 0 ≤ y) (hy1 : y < h) (hx0 : 0 ≤ x) (hx1 : x < w) :
    gen_cell src h w y x = standard_cell src h w y x := by
  have hb : src (y * w + x) ≤ 1 := by rcases hbin (y * w + x) with e | e <;> omega
  rw [gen_cell_eq src h w y x hb, standard_cell,
    live_eq_neighbor_add_center src h w y x hy0 hy1 hx0 hx1]
  rcases hbin (y * w + x) with e | e <;> rw [e] <;>
    by_cases hn : neighbor_count src h w y x = 3 <;>
      by_cases hn2 : neighbor_count src h w y x = 2 <;> simp [hn, hn2]

lemma gen_cell_binary (src : Int → Nat) (h w y x : Int) :
    gen_cell src h w y x = 0 ∨ gen_cell src h w y x = 1 := by
  unfold gen_cell
  exact (ite_eq_or_eq _ 1 0).symm

lemma cell_index_lt (h w y x : Nat) (hy : y < h) (hx : x < w) :
    y * w + x < h * w := by
  calc y * w + x < y * w + w := by omega
    _ = (y + 1) * w := by ring
    _ ≤ h * w := Nat.mul_le_mul_right w (by omega)

lemma do_gen_getD (src : Int → Nat) (h w y x : Nat) (hw : 0 < w)
    (hy : y < h) (hx : x < w) :
    (do_gen_naive src h w).getD (y * w + x) 0 = gen_cell src h w y x := by
  have hlt : y * w + x < h * w := cell_index_lt h w y x hy hx
  rw [do_gen_naive, List.getD_eq_getElem?_getD, List.getElem?_map,
    List.getElem?_range hlt]
  have ed : (y * w + x) / w = y := by
    have e : y * w + x = w * y + x := by ring
    rw [e, Nat.mul_add_div hw, Nat.div_eq_of_lt hx, Nat.add_zero]
  have em : (y * w + x) % w = x := by
    have e : y * w + x = w * y + x := by ring
    rw [e, Nat.mul_add_mod, Nat.mod_eq_of_lt hx]
  rw [Option.map_some', Option.getD_some, ed, em]

lemma standard_getD (src : Int → Nat) (h w y x : Nat) (hw : 0 < w)
    (hy : y < h) (hx : x < w) :
    (standard_step src h w).getD (y * w + x) 0 = standard_cell src h w y x := by
  have hlt : y * w + x < h * w := cell_index_lt h w y x hy hx
  rw [standard_step, List.getD_eq_getElem?_getD, List.getElem?_map,
    List.getElem?_range hlt]
  have ed : (y * w + x) / w = y := by
    have e : y * w + x = w * y + x := by ring
    rw [e, Nat.mul_add_div hw, Nat.div_eq_of_lt hx, Nat.add_zero]
  have em : (y * w + x) % w = x := by
    have e : y * w + x = w * y + x := by ring
    rw [e, Nat.mul_add_mod, Nat.mod_eq_of_lt hx]
  rw [Option.map_some', Option.getD_some, ed, em]

/-! ## Claims C1, C2, C6 -/

/-- C1: for every positive height and width and every binary src grid,
`step` sets each dst cell `(x, y)` to alive iff the self-inclusive 3×3 live
count `c` — the sum of src at `((y+dy+height) % height, (x+dx+width) % width)`
for `dy, dx ∈ {-1,0,1}`, including the center — equals 3, or equals 4 with
the center cell currently alive; every other cell is set dead. -/
theorem claim_c1 (height width : Nat) (src : Int → Nat)
    (hh : 0 < height) (hw : 0 < width)
    (hbin : ∀ i, src i = 0 ∨ src i = 1)
    (y x : Nat) (hy : y < height) (hx : x < width)
    (c : Nat)
    (hc : c =
        src (((y : Int) - 1 + height) % height * width + ((x : Int) - 1 + width) % width)
      + src (((y : Int) - 1 + height) % height * width + ((x : Int) + width) % width)
      + src (((y : Int) - 1 + height) % height * width + ((x : Int) + 1 + width) % width)
      + src (((y : Int) + height) % height * width + ((x : Int) - 1 + width) % width)
      + src (((y : Int) + height) % height * width + ((x : Int) + width) % width)
      + src (((y : Int) + height) % height * width + ((x : Int) + 1 + width) % width)
      + src (((y : Int) + 1 + height) % height * width + ((x : Int) - 1 + width) % width)
      + src (((y : Int) + 1 + height) % height * width + ((x : Int) + width) % width)
      + src (((y : Int) + 1 + height) % height * width + ((x : Int) + 1 + width) % width)) :
    (do_gen_naive src height width).getD (y * width + x) 0 =
      if c = 3 ∨ (c = 4 ∧ src ((y : Int) * width + x) = 1) then 1 else 0 := by
  rw [do_gen_getD src height width y x hw hy hx]
  have hb : src ((y : Int) * width + x) ≤ 1 := by
    rcases hbin ((y : Int) * width + x) with e | e <;> omega
  have hcl : live_count src height width y x = c := by
    rw [live_count_unfold, hc]
    simp only [show ∀ a b : Int, -1 + a + b = a - 1 + b from fun a b => by ring,
      show ∀ a b : Int, (0 : Int) + a + b = a + b from fun a b => by ring,
      show ∀ a b : Int, (1 : Int) + a + b = a + 1 + b from fun a b => by ring]
    omega
  rw [gen_cell_eq src height width y x hb, hcl]

/-- C1 witness: the dead 1×1 grid has count 0 at its only cell, which is set
dead. -/
theorem claim_c1_witness : (do_gen_naive (fun _ => 0) 1 1).getD 0 0 = 0 := by
  have := claim_c1 1 1 (fun _ => 0) (by decide) (by decide)
    (fun _ => Or.inl rfl) 0 0 (by decide) (by decide) 0 rfl
  simpa using this

/-- C2: for every positive height and width and every binary src grid, the
step function is extensionally equal to the standard Game-of-Life step on a
torus (birth on exactly 3 live neighbors, survival on 2 or 3, counting the
8-cell wrap-around neighborhood). -/
theorem claim_c2 (height width : Nat) (src : Int → Nat)
    (hh : 0 < height) (hw : 0 < width)
    (hbin : ∀ i, src i = 0 ∨ src i = 1) :
    do_gen_naive src height width = standard_step src height width := by
  unfold do_gen_naive standard_step
  apply List.map_congr_left
  intro i hi
  have hi2 : i < height * width := List.mem_range.mp hi
  have hdiv : i / width < height := (Nat.div_lt_iff_lt_mul hw).mpr hi2
  have hmod : i % width < width := Nat.mod_lt _ hw
  exact gen_cell_eq_standard src height width _ _ hbin
    (Int.natCast_nonneg _) (by exact_mod_cast hdiv)
    (Int.natCast_nonneg _) (by exact_mod_cast hmod)

/-- C2 witness: on the dead 1×1 torus both steps agree. -/
theorem claim_c2_witness :
    do_gen_naive (fun _ => 0) 1 1 = standard_step (fun _ => 0) 1 1 :=
  claim_c2 1 1 (fun _ => 0) (by decide) (by decide) (fun _ => Or.inl rfl)

/-- C6: for every positive height and width and every binary src grid,
`step` writes a dst grid of exactly `height * width` cells (row-major), and
every cell it writes is exactly 0 or 1. -/
theorem claim_c6 (height width : Nat) (src : Int → Nat)
    (hh : 0 < height) (hw : 0 < width)
    (hbin : ∀ i, src i = 0 ∨ src i = 1) :
    (do_gen_naive src height width).length = height * width ∧
      ∀ v ∈ do_gen_naive src height width, v = 0 ∨ v = 1 := by
  constructor
  · simp [do_gen_naive]
  · intro v hv
    obtain ⟨i, -, hvi⟩ := List.mem_map.mp hv
    rw [← hvi]
    exact gen_cell_binary src height width _ _

/-- C6 witness: the dead 1×1 grid yields one binary cell. -/
theorem claim_c6_witness :
    (do_gen_naive (fun _ => 0) 1 1).length = 1 * 1 ∧
      ∀ v ∈ do_gen_naive (fun _ => 0) 1 1, v = 0 ∨ v = 1 :=
  claim_c6 1 1 (fun _ => 0) (by decide) (by decide) (fun _ => Or.inl rfl)

/-! ## Helper lemmas: the 2×2 block (claim C7) -/

lemma flat_index_inj (w : Nat) (hw : 0 < w) (Y X : Int) (a b : Nat)
    (hX0 : 0 ≤ X) (hX1 : X < w) (hb : b < w) :
    Y * w + X = ((a * w + b : Nat) : Int) ↔ (Y = a ∧ X = b) := by
  constructor
  · intro he
    push_cast at he
    have hXb : X = b := by
      have h1 : (Y * (w : Int) + X) % w = X := by
        rw [show Y * (w : Int) + X = X + (w : Int) * Y from by ring,
          Int.add_mul_emod_self_left, Int.emod_eq_of_lt hX0 hX1]
      have h2 : ((a : Int) * w + b) % w = b := by
        rw [show (a : Int) * w + b = (b : Int) + (w : Int) * a from by ring,
          Int.add_mul_emod_self_left,
          Int.emod_eq_of_lt (Int.natCast_nonneg b) (by exact_mod_cast hb)]
      rw [he, h2] at h1
      exact h1.symm
    refine ⟨?_, hXb⟩
    have hYa : Y * (w : Int) = (a : Int) * w := by omega
    exact mul_right_cancel₀ (show (w : Int) ≠ 0 by exact_mod_cast hw.ne') hYa
  · rintro ⟨rfl, rfl⟩
    push_cast
    ring

lemma block_grid_at (w r c : Nat) (hw : 0 < w) (hc : c + 1 < w) (Y X : Int)
    (hX0 : 0 ≤ X) (hX1 : X < w) :
    block_grid w r c (Y * w + X) =
      (if Y = (r : Int) ∨ Y = (r : Int) + 1 then 1 else 0) *
        (if X = (c : Int) ∨ X = (c : Int) + 1 then 1 else 0) := by
  unfold block_grid
  rw [show (r * w + c + 1 : Nat) = r * w + (c + 1) from by omega,
    show ((r + 1) * w + c + 1 : Nat) = (r + 1) * w + (c + 1) from by omega]
  have hiff : ((Y = (r : Int) ∧ X = (c : Int)) ∨ (Y = (r : Int) ∧ X = ((c + 1 : Nat) : Int)) ∨
      (Y = ((r + 1 : Nat) : Int) ∧ X = (c : Int)) ∨
      (Y = ((r + 1 : Nat) : Int) ∧ X = ((c + 1 : Nat) : Int))) ↔
      ((Y = (r : Int) ∨ Y = (r : Int) + 1) ∧ (X = (c : Int) ∨ X = (c : Int) + 1)) := by
    push_cast
    tauto
  simp only [flat_index_inj w hw Y X r c hX0 hX1 (by omega),
    flat_index_inj w hw Y X r (c + 1) hX0 hX1 (by omega),
    flat_index_inj w hw Y X (r + 1) c hX0 hX1 (by omega),
    flat_index_inj w hw Y X (r + 1) (c + 1) hX0 hX1 (by omega), hiff]
  by_cases hY : Y = (r : Int) ∨ Y = (r : Int) + 1 <;>
    by_cases hX : X = (c : Int) ∨ X = (c : Int) + 1 <;>
      simp [hY, hX]

lemma triple_ind (n rr : Nat) (y : Int) (hn : 4 ≤ n) (hrr : rr + 1 < n)
    (hy0 : 0 ≤ y) (hy1 : y < n) :
    (((if (-1 + y + n) % n = (rr : Int) ∨ (-1 + y + n) % n = (rr : Int) + 1 then 1 else 0) +
      (if (0 + y + n) % n = (rr : Int) ∨ (0 + y + n) % n = (rr : Int) + 1 then 1 else 0) +
      (if (1 + y + n) % n = (rr : Int) ∨ (1 + y + n) % n = (rr : Int) + 1 then 1 else 0) : Nat)
        ≤ 2) ∧
      (((if (-1 + y + n) % n = (rr : Int) ∨ (-1 + y + n) % n = (rr : Int) + 1 then 1 else 0) +
        (if (0 + y + n) % n = (rr : Int) ∨ (0 + y + n) % n = (rr : Int) + 1 then 1 else 0) +
        (if (1 + y + n) % n = (rr : Int) ∨ (1 + y + n) % n = (rr : Int) + 1 then 1 else 0) : Nat)
          = 2 ↔ (y = (rr : Int) ∨ y = (rr : Int) + 1)) := by
  rw [wrap_dn n y hy0 hy1, wrap_mid n y hy0 hy1, wrap_up n y hy0 hy1]
  split_ifs <;> omega

lemma live_count_block (h w r c : Nat) (hh : 0 < h) (hw : 0 < w) (hc : c + 1 < w)
    (y x : Int) (hy0 : 0 ≤ y) (hy1 : y < h) (hx0 : 0 ≤ x) (hx1 : x < w) :
    live_count (block_grid w r c) h w y x =
      ((if (-1 + y + h) % h = (r : Int) ∨ (-1 + y + h) % h = (r : Int) + 1 then 1 else 0) +
       (if (0 + y + h) % h = (r : Int) ∨ (0 + y + h) % h = (r : Int) + 1 then 1 else 0) +
       (if (1 + y + h) % h = (r : Int) ∨ (1 + y + h) % h = (r : Int) + 1 then 1 else 0)) *
      ((if (-1 + x + w) % w = (c : Int) ∨ (-1 + x + w) % w = (c : Int) + 1 then 1 else 0) +
       (if (0 + x + w) % w = (c : Int) ∨ (0 + x + w) % w = (c : Int) + 1 then 1 else 0) +
       (if (1 + x + w) % w = (c : Int) ∨ (1 + x + w) % w = (c : Int) + 1 then 1 else 0)) := by
  have hw0 : (w : Int) ≠ 0 := by exact_mod_cast hw.ne'
  have hwp : (0 : Int) < w := by exact_mod_cast hw
  have hC0 : ∀ d : Int, 0 ≤ (d + x + w) % w := fun d => Int.emod_nonneg _ hw0
  have hC1 : ∀ d : Int, (d + x + w) % w < w := fun d => Int.emod_lt_of_pos _ hwp
  rw [live_count_unfold,
    block_grid_at w r c hw hc ((-1 + y + (h : Int)) % h) ((-1 + x + (w : Int)) % w)
      (hC0 (-1)) (hC1 (-1)),
    block_grid_at w r c hw hc ((-1 + y + (h : Int)) % h) ((0 + x + (w : Int)) % w)
      (hC0 0) (hC1 0),
    block_grid_at w r c hw hc ((-1 + y + (h : Int)) % h) ((1 + x + (w : Int)) % w)
      (hC0 1) (hC1 1),
    block_grid_at w r c hw hc ((0 + y + (h : Int)) % h) ((-1 + x + (w : Int)) % w)
      (hC0 (-1)) (hC1 (-1)),
    block_grid_at w r c hw hc ((0 + y + (h : Int)) % h) ((0 + x + (w : Int)) % w)
      (hC0 0) (hC1 0),
    block_grid_at w r c hw hc ((0 + y + (h : Int)) % h) ((1 + x + (w : Int)) % w)
      (hC0 1) (hC1 1),
    block_grid_at w r c hw hc ((1 + y + (h : Int)) % h) ((-1 + x + (w : Int)) % w)
      (hC0 (-1)) (hC1 (-1)),
    block_grid_at w r c hw hc ((1 + y + (h : Int)) % h) ((0 + x + (w : Int)) % w)
      (hC0 0) (hC1 0),
    block_grid_at w r c hw hc ((1 + y + (h : Int)) % h) ((1 + x + (w : Int)) % w)
      (hC0 1) (hC1 1)]
  ring

lemma mul_char_le_two (A B : Nat) (hA : A ≤ 2) (hB : B ≤ 2) :
    A * B ≠ 3 ∧ (A * B = 4 ↔ (A = 2 ∧ B = 2)) := by
  interval_cases A <;> interval_cases B <;> omega

lemma block_cell (h w r c : Nat) (hh : 4 ≤ h) (hw4 : 4 ≤ w)
    (hr : r + 1 < h) (hc : c + 1 < w) (y x : Int)
    (hy0 : 0 ≤ y) (hy1 : y < h) (hx0 : 0 ≤ x) (hx1 : x < w) :
    gen_cell (block_grid w r c) h w y x = block_grid w r c (y * w + x) := by
  have hw0 : 0 < w := by omega
  have hh0 : 0 < h := by omega
  have hcenter := block_grid_at w r c hw0 hc y x hx0 hx1
  have hlc := live_count_block h w r c hh0 hw0 hc y x hy0 hy1 hx0 hx1
  have hA := triple_ind h r y hh hr hy0 hy1
  have hB := triple_ind w c x hw4 hc hx0 hx1
  set A := ((if (-1 + y + (h : Int)) % h = (r : Int) ∨ (-1 + y + (h : Int)) % h = (r : Int) + 1 then 1 else 0) +
    (if (0 + y + (h : Int)) % h = (r : Int) ∨ (0 + y + (h : Int)) % h = (r : Int) + 1 then 1 else 0) +
    (if (1 + y + (h : Int)) % h = (r : Int) ∨ (1 + y + (h : Int)) % h = (r : Int) + 1 then 1 else 0) : Nat) with hAdef
  set B := ((if (-1 + x + (w : Int)) % w = (c : Int) ∨ (-1 + x + (w : Int)) % w = (c : Int) + 1 then 1 else 0) +
    (if (0 + x + (w : Int)) % w = (c : Int) ∨ (0 + x + (w : Int)) % w = (c : Int) + 1 then 1 else 0) +
    (if (1 + x + (w : Int)) % w = (c : Int) ∨ (1 + x + (w : Int)) % w = (c : Int) + 1 then 1 else 0) : Nat) with hBdef
  obtain ⟨hA2, hAiff⟩ := hA
  obtain ⟨hB2, hBiff⟩ := hB
  obtain ⟨hm3, hm4⟩ := mul_char_le_two A B hA2 hB2
  unfold gen_cell
  rw [hlc, hcenter]
  by_cases hY : y = (r : Int) ∨ y = (r : Int) + 1 <;>
    by_cases hX : x = (c : Int) ∨ x = (c : Int) + 1
  · rw [hAiff.mpr hY, hBiff.mpr hX, if_pos hY, if_pos hX]
    decide
  · have hBne : A * B ≠ 4 := fun hab => hX (hBiff.mp (hm4.mp hab).2)
    rw [if_neg hX, Nat.mul_zero, if_neg hm3, if_neg hBne]
    decide
  · have hAne : A * B ≠ 4 := fun hab => hY (hAiff.mp (hm4.mp hab).1)
    rw [if_neg hY, Nat.zero_mul, if_neg hm3, if_neg hAne]
    decide
  · have hAne : A * B ≠ 4 := fun hab => hY (hAiff.mp (hm4.mp hab).1)
    rw [if_neg hY, Nat.zero_mul, if_neg hm3, if_neg hAne]
    decide

/-! ## Claim C7 -/

/-- C7: for every height and width at least 4 and every grid that is dead
except a single non-wrapping 2×2 block of live cells, `step` returns a dst
grid equal to the src grid: the block is a still life. -/
theorem claim_c7 (height width r c : Nat)
    (hh : 4 ≤ height) (hw : 4 ≤ width) (hr : r + 1 < height) (hc : c + 1 < width) :
    do_gen_naive (block_grid width r c) height width =
      (List.range (height * width)).map
        (fun (i : Nat) => block_grid width r c ((i : Nat) : Int)) := by
  unfold do_gen_naive
  apply List.map_congr_left
  intro i hi
  have hi2 : i < height * width := List.mem_range.mp hi
  have hw0 : 0 < width := by omega
  have hdiv : i / width < height := (Nat.div_lt_iff_lt_mul hw0).mpr hi2
  have hmod : i % width < width := Nat.mod_lt _ hw0
  rw [block_cell height width r c hh hw hr hc _ _
    (Int.natCast_nonneg _) (by exact_mod_cast hdiv)
    (Int.natCast_nonneg _) (by exact_mod_cast hmod)]
  congr 1
  have hdm : i / width * width + i % width = i := Nat.div_add_mod' i width
  exact_mod_cast hdm

/-- C7 witness: the 2×2 block at (1,1) on a 4×4 torus is unchanged. -/
theorem claim_c7_witness :
    do_gen_naive (block_grid 4 1 1) 4 4 =
      (List.range (4 * 4)).map (fun (i : Nat) => block_grid 4 1 1 ((i : Nat) : Int)) :=
  claim_c7 4 4 1 1 (by decide) (by decide) (by decide) (by decide)

/-! ## Helper lemmas: frame encoder -/

lemma getD_set_ne (buf : List Nat) (p v j d : Nat) (hne : p ≠ j) :
    (buf.set p v).getD j d = buf.getD j d := by
  rw [List.getD_eq_getElem?_getD, List.getD_eq_getElem?_getD,
    List.getElem?_set_ne hne]

lemma getD_set_self (buf : List Nat) (p v d : Nat) (hp : p < buf.length) :
    (buf.set p v).getD p d = v := by
  rw [List.getD_eq_getElem?_getD, List.getElem?_set_self hp]
  rfl

lemma write_cells_length (ps : List (Nat × Nat)) (buf : List Nat) :
    (write_cells ps buf).length = buf.length := by
  induction ps generalizing buf with
  | nil => rfl
  | cons q rest ih =>
    have e : write_cells (q :: rest) buf = write_cells rest (buf.set q.1 q.2) := rfl
    rw [e, ih, List.length_set]

lemma write_cells_getD_of_ne (ps : List (Nat × Nat)) (buf : List Nat) (j d : Nat)
    (hne : ∀ q ∈ ps, q.1 ≠ j) :
    (write_cells ps buf).getD j d = buf.getD j d := by
  induction ps generalizing buf with
  | nil => rfl
  | cons q rest ih =>
    have e : write_cells (q :: rest) buf = write_cells rest (buf.set q.1 q.2) := rfl
    rw [e, ih _ (fun p hp => hne p (List.mem_cons_of_mem _ hp)),
      getD_set_ne buf q.1 q.2 j d (hne q (List.mem_cons_self _ _))]

lemma write_cells_getD_mem (ps : List (Nat × Nat)) (buf : List Nat) (j v d : Nat)
    (hmem : (j, v) ∈ ps) (huniq : ∀ q ∈ ps, q.1 = j → q.2 = v)
    (hlen : j < buf.length) :
    (write_cells ps buf).getD j d = v := by
  induction ps generalizing buf with
  | nil => cases hmem
  | cons q rest ih =>
    have e : write_cells (q :: rest) buf = write_cells rest (buf.set q.1 q.2) := rfl
    rw [e]
    by_cases hrest : ∃ p ∈ rest, p.1 = j
    · obtain ⟨p, hp, hpj⟩ := hrest
      have hpv : p.2 = v := huniq p (List.mem_cons_of_mem _ hp) hpj
      obtain ⟨p1, p2⟩ := p
      simp only at hpj hpv
      subst hpj; subst hpv
      exact ih (buf.set q.1 q.2) hp
        (fun p hp2 => huniq p (List.mem_cons_of_mem _ hp2))
        (by rw [List.length_set]; exact hlen)
    · push_neg at hrest
      rcases List.mem_cons.mp hmem with hq | hq
      · rw [write_cells_getD_of_ne rest _ j d hrest, ← hq]
        exact getD_set_self buf j v d hlen
      · exact absurd rfl (hrest (j, v) hq)

lemma write_cells_append (p q : List (Nat × Nat)) (buf : List Nat) :
    write_cells (p ++ q) buf = write_cells q (write_cells p buf) := by
  simp [write_cells, List.foldl_append]

lemma foldl_row_writes (l : List Nat) (g : Nat → List (Nat × Nat)) (buf : List Nat) :
    l.foldl (fun b y => write_cells (g y) b) buf = write_cells ((l.map g).flatten) buf := by
  induction l generalizing buf with
  | nil => rfl
  | cons y rest ih =>
    simp only [List.foldl_cons, List.map_cons, List.flatten_cons]
    rw [ih, write_cells_append]

lemma fill_eq_write_cells (draw : List Nat) (active prev : Nat → Nat)
    (tokens : List Nat) (h w : Nat) :
    fill_draw_buffer_4bit_color draw active prev tokens h w =
      write_cells (cell_writes active prev tokens h w) draw := by
  unfold fill_draw_buffer_4bit_color cell_writes
  rw [← foldl_row_writes]
  apply List.foldl_ext
  intro buf y hy
  rw [write_cells, List.foldl_map]

lemma mem_cell_writes (active prev : Nat → Nat) (tokens : List Nat)
    (h w y x : Nat) (hy : y < h) (hx : x < w) :
    (3 * (y * (w + 1) + x) + 1,
      tokens.getD ((active (y * w + x) <<< 1) ||| prev (y * w + x)) 0) ∈
      cell_writes active prev tokens h w :=
  List.mem_flatten.mpr ⟨_, List.mem_map.mpr ⟨y, List.mem_range.mpr hy, rfl⟩,
    List.mem_map.mpr ⟨x, List.mem_range.mpr hx, rfl⟩⟩

lemma cell_writes_shape (active prev : Nat → Nat) (tokens : List Nat)
    (h w : Nat) (q : Nat × Nat) (hq : q ∈ cell_writes active prev tokens h w) :
    ∃ y x, y < h ∧ x < w ∧
      q = (3 * (y * (w + 1) + x) + 1,
        tokens.getD ((active (y * w + x) <<< 1) ||| prev (y * w + x)) 0) := by
  obtain ⟨row, hrow, hq2⟩ := List.mem_flatten.mp hq
  obtain ⟨y, hy, rfl⟩ := List.mem_map.mp hrow
  obtain ⟨x, hx, rfl⟩ := List.mem_map.mp hq2
  exact ⟨y, x, List.mem_range.mp hy, List.mem_range.mp hx, rfl⟩

lemma unit_pos_inj (w y x y2 x2 : Nat) (hx : x < w) (hx2 : x2 < w)
    (he : 3 * (y * (w + 1) + x) + 1 = 3 * (y2 * (w + 1) + x2) + 1) :
    y = y2 ∧ x = x2 := by
  have h1 : y * (w + 1) + x = y2 * (w + 1) + x2 := by omega
  have hyy : y = y2 := by
    have hy : (y * (w + 1) + x) / (w + 1) = y := by
      rw [show y * (w + 1) + x = (w + 1) * y + x from by ring,
        Nat.mul_add_div (by omega), Nat.div_eq_of_lt (by omega), Nat.add_zero]
    have hy2 : (y2 * (w + 1) + x2) / (w + 1) = y2 := by
      rw [show y2 * (w + 1) + x2 = (w + 1) * y2 + x2 from by ring,
        Nat.mul_add_div (by omega), Nat.div_eq_of_lt (by omega), Nat.add_zero]
    rw [← hy, ← hy2, h1]
  subst hyy
  exact ⟨rfl, by omega⟩

lemma fill_length (draw : List Nat) (active prev : Nat → Nat)
    (tokens : List Nat) (h w : Nat) :
    (fill_draw_buffer_4bit_color draw active prev tokens h w).length = draw.length := by
  rw [fill_eq_write_cells, write_cells_length]

lemma fill_getD_scaffold (draw : List Nat) (active prev : Nat → Nat)
    (tokens : List Nat) (h w j d : Nat)
    (hj : ¬ ∃ y x, y < h ∧ x < w ∧ j = 3 * (y * (w + 1) + x) + 1) :
    (fill_draw_buffer_4bit_color draw active prev tokens h w).getD j d =
      draw.getD j d := by
  rw [fill_eq_write_cells]
  apply write_cells_getD_of_ne
  intro q hq
  obtain ⟨y, x, hy, hx, rfl⟩ := cell_writes_shape active prev tokens h w q hq
  exact fun hqj => hj ⟨y, x, hy, hx, hqj.symm⟩

lemma fill_getD_cell (draw : List Nat) (active prev : Nat → Nat)
    (tokens : List Nat) (h w y x d : Nat) (hy : y < h) (hx : x < w)
    (hlen : draw.length = 3 * (w + 1) * h) :
    (fill_draw_buffer_4bit_color draw active prev tokens h w).getD
        (3 * (y * (w + 1) + x) + 1) d =
      tokens.getD ((active (y * w + x) <<< 1) ||| prev (y * w + x)) 0 := by
  rw [fill_eq_write_cells]
  apply write_cells_getD_mem
  · exact mem_cell_writes active prev tokens h w y x hy hx
  · intro q hq hq1
    obtain ⟨y2, x2, hy2, hx2, rfl⟩ := cell_writes_shape active prev tokens h w q hq
    obtain ⟨ey, ex⟩ := unit_pos_inj w y2 x2 y x hx2 hx hq1
    subst ey; subst ex; rfl
  · rw [hlen]
    have h1 : y * (w + 1) + x < h * (w + 1) :=
      calc y * (w + 1) + x < y * (w + 1) + (w + 1) := by omega
        _ = (y + 1) * (w + 1) := by ring
        _ ≤ h * (w + 1) := Nat.mul_le_mul_right _ (by omega)
    calc 3 * (y * (w + 1) + x) + 1 < 3 * (h * (w + 1)) := by omega
      _ = 3 * (w + 1) * h := by ring

lemma sum_map_const {α : Type} (l : List α) (k : Nat) :
    (l.map (fun _ => k)).sum = l.length * k := by
  induction l with
  | nil => simp
  | cons a rest ih => simp [ih]; ring

lemma init_length (h w : Nat) :
    (init_draw_buffer h w).length = 3 * (w + 1) * h := by
  unfold init_draw_buffer
  rw [List.length_flatten, List.map_map]
  have hrow : ∀ y : Nat, (List.length ∘ fun _ : Nat =>
      ((List.range w).map (fun _ => ([0x5B1B, 0x3030, 0x206D] : List Nat))).flatten ++
        ([0x5B1B, 0x3030, 0x0A6D] : List Nat)) y = 3 * (w + 1) := by
    intro y
    simp only [Function.comp_apply, List.length_append, List.length_flatten,
      List.map_map]
    rw [show (List.length ∘ fun _ : Nat => ([0x5B1B, 0x3030, 0x206D] : List Nat)) =
      (fun _ : Nat => (3 : Nat)) from rfl, sum_map_const, List.length_range]
    simp
    ring
  rw [List.map_congr_left (fun y _ => hrow y), sum_map_const, List.length_range]
  ring

/-! ## Claims C3, C4, C5, C8 -/

/-- C3 counterexample: with `previous = 0` and `current = 1` on a 1×1 grid,
the token the encoder actually writes is not
`token_table[(previous << 1) | current]` (the index `(0 <<< 1) ||| 1 = 1`
below is the claim's `(previous[i] << 1) | current[i]`): the code indexes
with `(current << 1) | previous` instead.  Under the monochrome table the
claimed transition code for dead→live ("47" = `0x3734`) is also not what is
written (the code writes "40" = `0x3034`). -/
theorem claim_c3_counterexample :
    (fill_draw_buffer_4bit_color (init_draw_buffer 1 1) (fun _ => 1) (fun _ => 0)
        bw_tokens_4bit 1 1).getD 1 0 ≠ bw_tokens_4bit.getD ((0 <<< 1) ||| 1) 0 ∧
    (fill_draw_buffer_4bit_color (init_draw_buffer 1 1) (fun _ => 1) (fun _ => 0)
        color_tokens_4bit 1 1).getD 1 0 ≠
      color_tokens_4bit.getD ((0 <<< 1) ||| 1) 0 ∧
    (fill_draw_buffer_4bit_color (init_draw_buffer 1 1) (fun _ => 1) (fun _ => 0)
        bw_tokens_4bit 1 1).getD 1 0 ≠ 0x3734 := by
  decide

/-- C3 as amended: `encode` writes into the interior slot of every cell `i`
the token `token_table[(current[i] << 1) | previous[i]]`; the resulting
transition-to-code mapping is dead→dead "40"/"40", dead→live "42"/"40",
live→dead "41"/"47", live→live "47"/"47" (colored / monochrome). -/
theorem claim_c3_amended (height width : Nat) (cur prev : Nat → Nat)
    (colored : Bool) (y x : Nat) (hy : y < height) (hx : x < width)
    (hcur : ∀ i, cur i = 0 ∨ cur i = 1) (hprev : ∀ i, prev i = 0 ∨ prev i = 1) :
    (fill_draw_buffer_4bit_color (init_draw_buffer height width) cur prev
        (if colored then color_tokens_4bit else bw_tokens_4bit) height width).getD
        (3 * (y * (width + 1) + x) + 1) 0 =
      (if colored then color_tokens_4bit else bw_tokens_4bit).getD
        ((cur (y * width + x) <<< 1) ||| prev (y * width + x)) 0 ∧
    (fill_draw_buffer_4bit_color (init_draw_buffer height width) cur prev
        (if colored then color_tokens_4bit else bw_tokens_4bit) height width).getD
        (3 * (y * (width + 1) + x) + 1) 0 =
      transition_token colored (prev (y * width + x)) (cur (y * width + x)) := by
  have h1 := fill_getD_cell (init_draw_buffer height width) cur prev
    (if colored then color_tokens_4bit else bw_tokens_4bit) height width y x 0
    hy hx (init_length height width)
  refine ⟨h1, ?_⟩
  rw [h1]
  rcases hcur (y * width + x) with e1 | e1 <;> rcases hprev (y * width + x) with e2 | e2 <;>
    rw [e1, e2] <;> cases colored <;> decide

/-- C3 witness: a dead→live transition on a 1×1 grid under the colored
table yields the green code "42" = `0x3234`, which is
`color_tokens_4bit[(1 <<< 1) ||| 0]`. -/
theorem claim_c3_amended_witness :
    (fill_draw_buffer_4bit_color (init_draw_buffer 1 1) (fun _ => 1) (fun _ => 0)
        (if true then color_tokens_4bit else bw_tokens_4bit) 1 1).getD
        (3 * (0 * (1 + 1) + 0) + 1) 0 =
      (if true then color_tokens_4bit else bw_tokens_4bit).getD
        (((fun _ : Nat => 1) (0 * 1 + 0) <<< 1) ||| (fun _ : Nat => 0) (0 * 1 + 0)) 0 ∧
    (fill_draw_buffer_4bit_color (init_draw_buffer 1 1) (fun _ => 1) (fun _ => 0)
        (if true then color_tokens_4bit else bw_tokens_4bit) 1 1).getD
        (3 * (0 * (1 + 1) + 0) + 1) 0 =
      transition_token true ((fun _ : Nat => 0) (0 * 1 + 0))
        ((fun _ : Nat => 1) (0 * 1 + 0)) :=
  claim_c3_amended 1 1 (fun _ => 1) (fun _ => 0) true 0 0 (by decide) (by decide)
    (fun _ => Or.inr rfl) (fun _ => Or.inl rfl)

/-- C4 at the claim's input `height = 2`, `width = 2`,
`current = [1,0,0,1]`, `previous = [0,0,0,0]`: the interior token units sit
at buffer positions 1, 4, 10, 13.  The colored table produces the claimed
sequence "42 40 40 42" (`0x3234 0x3034 0x3034 0x3234`), but the monochrome
table produces "40 40 40 40" — not the claimed "47 40 40 47": the
`bw_tokens_4bit` table is laid out for the `(previous << 1) | current`
index order while the encoder indexes `(current << 1) | previous`, so in
monochrome mode the written code tracks the previous state of the cell,
contradicting the encoder's own description ("records the current state",
C lines 64-65) and the spec's token table. -/
theorem claim_c4_eval :
    (([1, 4, 10, 13] : List Nat).map fun p =>
        (fill_draw_buffer_4bit_color (init_draw_buffer 2 2)
          (fun i => ([1, 0, 0, 1] : List Nat).getD i 0) (fun _ => 0)
          color_tokens_4bit 2 2).getD p 0) =
      [0x3234, 0x3034, 0x3034, 0x3234] ∧
    (([1, 4, 10, 13] : List Nat).map fun p =>
        (fill_draw_buffer_4bit_color (init_draw_buffer 2 2)
          (fun i => ([1, 0, 0, 1] : List Nat).getD i 0) (fun _ => 0)
          bw_tokens_4bit 2 2).getD p 0) =
      [0x3034, 0x3034, 0x3034, 0x3034] := by
  decide

/-- C5: `encode` mutates only the interior color-code slot of each of the
`height * width` cell units: every unit of the scaffolding-initialized draw
buffer other than a cell's code unit `3*(y*(width+1)+x) + 1` (in particular
each unit's ESC-`[` prefix, its `m`-space / `m`-newline suffix, and the
entire row-terminator unit of every row including its "00" code) is
identical before and after the call. -/
theorem claim_c5 (height width : Nat) (cur prev : Nat → Nat)
    (tokens : List Nat) (j : Nat)
    (hcur : ∀ i, cur i = 0 ∨ cur i = 1) (hprev : ∀ i, prev i = 0 ∨ prev i = 1)
    (htok : tokens = color_tokens_4bit ∨ tokens = bw_tokens_4bit)
    (hj : ¬ ∃ y x, y < height ∧ x < width ∧ j = 3 * (y * (width + 1) + x) + 1) :
    (fill_draw_buffer_4bit_color (init_draw_buffer height width) cur prev tokens
        height width).getD j 0 = (init_draw_buffer height width).getD j 0 :=
  fill_getD_scaffold (init_draw_buffer height width) cur prev tokens
    height width j 0 hj

/-- C5 witness: on a 1×1 grid, unit 0 (the first ESC-`[` prefix) is
untouched. -/
theorem claim_c5_witness :
    (fill_draw_buffer_4bit_color (init_draw_buffer 1 1) (fun _ => 1) (fun _ => 0)
        color_tokens_4bit 1 1).getD 0 0 = (init_draw_buffer 1 1).getD 0 0 :=
  claim_c5 1 1 (fun _ => 1) (fun _ => 0) color_tokens_4bit 0
    (fun _ => Or.inr rfl) (fun _ => Or.inl rfl) (Or.inl rfl)
    (by rintro ⟨y, x, hy, hx, hj⟩; omega)

/-- C8: the first rendered frame uses a previous grid that is a copy of the
current grid, so in both color modes every cell token of the first frame is
either the dead→dead code "40" (`0x3034`) or the live→live code "47"
(`0x3734`); the change codes "41"/"42" never appear. -/
theorem claim_c8 (height width : Nat) (cur : Nat → Nat) (tokens : List Nat)
    (y x : Nat) (hy : y < height) (hx : x < width)
    (hcur : ∀ i, cur i = 0 ∨ cur i = 1)
    (htok : tokens = color_tokens_4bit ∨ tokens = bw_tokens_4bit) :
    (first_frame cur tokens height width).getD (3 * (y * (width + 1) + x) + 1) 0 =
        0x3034 ∨
      (first_frame cur tokens height width).getD (3 * (y * (width + 1) + x) + 1) 0 =
        0x3734 := by
  unfold first_frame
  rw [fill_getD_cell (init_draw_buffer height width) cur cur tokens height width
    y x 0 hy hx (init_length height width)]
  rcases hcur (y * width + x) with e | e <;> rw [e] <;>
    rcases htok with ht | ht <;> subst ht <;> decide

/-- C8 witness: a live cell on a 1×1 grid renders as "47" in the first
colored frame. -/
theorem claim_c8_witness :
    (first_frame (fun _ => 1) color_tokens_4bit 1 1).getD
        (3 * (0 * (1 + 1) + 0) + 1) 0 = 0x3034 ∨
      (first_frame (fun _ => 1) color_tokens_4bit 1 1).getD
        (3 * (0 * (1 + 1) + 0) + 1) 0 = 0x3734 :=
  claim_c8 1 1 (fun _ => 1) color_tokens_4bit 0 0 (by decide) (by decide)
    (fun _ => Or.inr rfl) (Or.inl rfl)

/-! ## Claim C9 -/

lemma driver_loop_bound (interrupt : Nat → Bool) :
    ∀ k gen, 50000 - gen ≤ k →
      (driver_loop interrupt gen).1 ≤ 50000 - gen ∧
        (driver_loop interrupt gen).2 = 0 := by
  intro k
  induction k with
  | zero =>
    intro gen hg
    have hng : ¬ gen < 50000 := by omega
    rw [driver_loop, if_neg hng]
    exact ⟨Nat.zero_le _, rfl⟩
  | succ k ih =>
    intro gen hg
    rw [driver_loop]
    by_cases h1 : gen < 50000
    · rw [if_pos h1]
      by_cases h2 : interrupt gen = true
      · rw [if_pos h2]
        exact ⟨Nat.zero_le _, rfl⟩
      · rw [if_neg h2]
        obtain ⟨ih1, ih2⟩ := ih (gen + 1) (by omega)
        exact ⟨by omega, ih2⟩
    · rw [if_neg h1]
      exact ⟨Nat.zero_le _, rfl⟩

/-- C9: the driver loop always terminates — whatever the interrupt flag does
and whatever the grids hold, the per-generation loop executes at most 50000
render-and-step iterations, and main then returns 0. -/
theorem claim_c9 (interrupt : Nat → Bool) :
    (driver_loop interrupt 0).1 ≤ 50000 ∧ (driver_loop interrupt 0).2 = 0 := by
  have h := driver_loop_bound interrupt 50000 0 (by omega)
  exact ⟨by omega, h.2⟩

/-! ## Claim C10 -/

lemma check_arg_range (s : List Char) (lo hi : Nat)
    (hs : check_arg s lo hi = true) :
    lo ≤ (strtoul10 s).1 ∧ (strtoul10 s).1 ≤ hi := by
  unfold check_arg at hs
  simp only [Bool.and_eq_true, decide_eq_true_eq] at hs
  exact ⟨hs.1.2, hs.2⟩


lemma check_arg_false_of_fails (s : List Char) (lo hi : Nat)
    (hf : claim_fails s lo hi) :
    check_arg s lo hi = false := by
  by_contra hc
  have ht : check_arg s lo hi = true := by
    revert hc
    cases check_arg s lo hi <;> simp
  unfold check_arg at ht
  simp only [Bool.and_eq_true, decide_eq_true_eq] at ht
  obtain ⟨⟨⟨⟨hA, hB⟩, hC⟩, hD⟩, hE⟩ := ht
  unfold claim_fails at hf
  rcases hf with h | h | h | h
  · rw [hA] at h
    cases h
  · exact h (List.isEmpty_iff.mp hB)
  · omega
  · omega

lemma validate3_error (xs : List (List Char))
    (hf : claim_fails (xs.getD 0 []) 1 2000 ∨ claim_fails (xs.getD 1 []) 1 2000 ∨
      claim_fails (xs.getD 2 []) 0 4800) :
    validate3 xs = .error 1 := by
  unfold validate3
  rcases hf with h | h | h
  · rw [check_arg_false_of_fails _ _ _ h]
    rfl
  · rcases Bool.eq_false_or_eq_true (check_arg (xs.getD 0 []) 1 2000) with h0 | h0 <;>
      rw [h0, check_arg_false_of_fails _ _ _ h] <;> rfl
  · rcases Bool.eq_false_or_eq_true (check_arg (xs.getD 0 []) 1 2000) with h0 | h0 <;>
      rcases Bool.eq_false_or_eq_true (check_arg (xs.getD 1 []) 1 2000) with h1 | h1 <;>
        rw [h0, h1, check_arg_false_of_fails _ _ _ h] <;> rfl

lemma validate3_ok_shape (xs : List (List Char)) (v : Nat × Nat × Nat)
    (hval : validate3 xs = .ok v) :
    check_arg (xs.getD 0 []) 1 2000 = true ∧ check_arg (xs.getD 1 []) 1 2000 = true ∧
      check_arg (xs.getD 2 []) 0 4800 = true ∧
      v = ((strtoul10 (xs.getD 0 [])).1, (strtoul10 (xs.getD 1 [])).1,
        (strtoul10 (xs.getD 2 [])).1) := by
  unfold validate3 at hval
  rcases Bool.eq_false_or_eq_true (check_arg (xs.getD 0 []) 1 2000) with c0 | c0 <;>
    rcases Bool.eq_false_or_eq_true (check_arg (xs.getD 1 []) 1 2000) with c1 | c1 <;>
      rcases Bool.eq_false_or_eq_true (check_arg (xs.getD 2 []) 0 4800) with c2 | c2 <;>
        rw [c0, c1, c2] at hval
  all_goals first
    | exact Except.noConfusion hval
    | exact ⟨c0, c1, c2, (Except.ok.inj hval).symm⟩

lemma validate3_ok_ranges (xs : List (List Char)) (b bw : Bool) (hv wv fv : Nat)
    (hok : (validate3 xs).map (fun v => (b, v.1, v.2.1, v.2.2)) = .ok (bw, hv, wv, fv)) :
    (1 ≤ hv ∧ hv ≤ 2000) ∧ (1 ≤ wv ∧ wv ≤ 2000) ∧ fv ≤ 4800 := by
  rcases hval : validate3 xs with e | v
  · rw [hval] at hok
    exact Except.noConfusion hok
  · obtain ⟨c0, c1, c2, hveq⟩ := validate3_ok_shape xs v hval
    rw [hval] at hok
    have h := Except.ok.inj hok
    subst hveq
    simp only [Prod.mk.injEq] at h
    obtain ⟨-, h1, h2, h3⟩ := h
    subst h1; subst h2; subst h3
    obtain ⟨r0l, r0h⟩ := check_arg_range _ _ _ c0
    obtain ⟨r1l, r1h⟩ := check_arg_range _ _ _ c1
    obtain ⟨r2l, r2h⟩ := check_arg_range _ _ _ c2
    exact ⟨⟨r0l, r0h⟩, ⟨r1l, r1h⟩, r2h⟩

/-- C10 counterexample: the argument vector `gol -h 1 1` has three value
slots `-h`, `1`, `1` of which the first fails decimal parsing (no digits
consumed), yet the program prints the usage text and returns 0, not 1: the
help check of C line 103 fires on any first argument beginning with
`-h`/`-H` before validation is reached. -/
theorem claim_c10_counterexample :
    claim_fails ['-', 'h'] 1 2000 ∧
      main_args [['g', 'o', 'l'], ['-', 'h'], ['1'], ['1']] = .error 0 := by
  constructor
  · exact Or.inl rfl
  · rfl

/-- C10 as amended: provided the program does not take the help path (at
least four argv entries and `argv[1]` matching neither `-h*` nor `--help*`
case-insensitively), validation accepts `height` and `width` only in
`[1, 2000]` and `max_FPS` only in `[0, 4800]`, and if any of the three value
slots (after skipping a leading `-bw`/`--bw` flag when present with enough
arguments) fails decimal parsing — no digits consumed or trailing non-digit
characters — or falls outside its range, the program returns 1, before any
buffer is allocated or any simulation step runs. -/
theorem claim_c10_amended :
    (∀ (argv : List (List Char)) (bw : Bool) (hv wv fv : Nat),
      main_args argv = .ok (bw, hv, wv, fv) →
        (1 ≤ hv ∧ hv ≤ 2000) ∧ (1 ≤ wv ∧ wv ≤ 2000) ∧ fv ≤ 4800) ∧
    (∀ (argv args : List (List Char)),
      4 ≤ argv.length →
      is_help_arg (argv.getD 1 []) = false →
      args = (if 5 ≤ argv.length ∧ is_bw_arg (argv.getD 1 []) = true
        then argv.drop 2 else argv.drop 1) →
      (claim_fails (args.getD 0 []) 1 2000 ∨ claim_fails (args.getD 1 []) 1 2000 ∨
        claim_fails (args.getD 2 []) 0 4800) →
      main_args argv = .error 1) := by
  constructor
  · intro argv bw hv wv fv hok
    unfold main_args at hok
    split at hok
    · exact Except.noConfusion hok
    · split at hok
      · exact validate3_ok_ranges _ _ _ _ _ _ hok
      · exact validate3_ok_ranges _ _ _ _ _ _ hok
  · intro argv args hlen hhelp hargs hf
    unfold main_args
    rw [if_neg (by
      rintro (h | ⟨-, h⟩)
      · omega
      · rw [hhelp] at h
        cases h)]
    by_cases hbw : 5 ≤ argv.length ∧ is_bw_arg (argv.getD 1 []) = true
    · rw [if_pos hbw] at hargs
      rw [if_pos hbw, ← hargs, validate3_error args hf]
      rfl
    · rw [if_neg hbw] at hargs
      rw [if_neg hbw, ← hargs, validate3_error args hf]
      rfl

/-- C10 witness for the amended claim: `gol 0 50 5` has height 0 below the
minimum 1, so validation rejects it with exit code 1. -/
theorem claim_c10_amended_witness :
    main_args [['g', 'o', 'l'], ['0'], ['5', '0'], ['5']] = .error 1 :=
  claim_c10_amended.2 [['g', 'o', 'l'], ['0'], ['5', '0'], ['5']]
    [['0'], ['5', '0'], ['5']] (by decide) (by decide) (by decide)
    (Or.inl (by unfold claim_fails; decide))
